import Mathlib

/-!
Verification of the document storage and tool-dispatch core of the notes-agent
repository (storage.py, tool_handlers.py, handlers.py), as a shallow embedding.

Filesystem directories are association lists from file name to an `FsFile`
(content plus a readability flag; a file whose bytes cannot be read or decoded
has `readable := false`).  The metadata dictionary is an association list from
document name to `DocumentRecord`, mirroring the JSON dict in
`document_metadata.json`.  I/O successes that depend on the environment (the
metadata save in `_save_metadata`, the processed-file write in
`write_processed_file`) are modelled by explicit boolean parameters; the
external improvement capability is a parameter of type
`String → Except String String` (exception message on failure); the content
hash (`hashlib.md5(...).hexdigest()` in `_get_file_hash`) is an abstract
parameter `hashFn : String → String`.
-/

/-- A file on disk: its content, and whether opening/reading it succeeds
(a `readable := false` file exists but raises on `open`/`read`, covering both
I/O errors and UTF-8 decode failures). -/
structure FsFile where
  content : String
  readable : Bool
deriving DecidableEq

/-- A directory listing: association list from file name to file. -/
abbrev Dir := List (String × FsFile)

/-- One entry of `document_metadata.json`, as built by
`DocumentStorage.mark_file_processed` (storage.py lines 88-94). -/
structure DocumentRecord where
  hash : String
  processed_at : String
  raw_path : String
  processed_path : String
  size : Nat
deriving DecidableEq

/-- The in-memory metadata dictionary `self.metadata`. -/
abbrev Metadata := List (String × DocumentRecord)

/-- The persisted snapshot `document_metadata.json`: missing, present but
unparsable by `orjson.loads`, or present and decoding to a mapping. -/
inductive Snapshot where
  | absent
  | corrupt
  | data (m : Metadata)
deriving DecidableEq

/-- The state a `DocumentStorage` instance acts on: the raw and processed
directories, the persisted snapshot, the in-memory metadata dictionary, and
the current clock reading (`datetime.now().isoformat()`). -/
structure StorageState where
  rawDir : Dir
  processedDir : Dir
  snapshot : Snapshot
  metadata : Metadata
  now : String
deriving DecidableEq

/-- Python `Path.exists()` over a directory listing. -/
def fileExists (d : Dir) (n : String) : Bool :=
  (d.lookup n).isSome

/-- Opening a file and reading its content: `none` when the file is absent or
unreadable (the `except` clauses in storage.py turn both into failure). -/
def readBytes (d : Dir) (n : String) : Option String :=
  match d.lookup n with
  | some f => if f.readable then some f.content else none
  | none => none

/-- DocumentStorage._load_metadata (storage.py lines 27-36): return the decoded
mapping if the snapshot file exists and parses; on a parse failure log a
warning and return the empty dict; if the file does not exist return the empty
dict.  The function is total: no failure reaches the caller. -/
def load_metadata (snap : Snapshot) : Metadata :=
  match snap with
  | Snapshot.absent => []
  | Snapshot.corrupt => []
  | Snapshot.data m => m

/-- DocumentStorage._save_metadata (storage.py lines 38-44): write the
serialized in-memory dict over the snapshot file; on failure log the error and
continue (the in-memory dict is untouched and no exception escapes).  `saveOk`
models whether the underlying write succeeds. -/
def save_metadata (saveOk : Bool) (st : StorageState) : StorageState :=
  if saveOk then { st with snapshot := Snapshot.data st.metadata } else st

/-- DocumentStorage._get_file_hash (storage.py lines 46-53): md5 of the file
bytes; on any read failure log and return the empty string sentinel. -/
def get_file_hash (hashFn : String → String) (d : Dir) (n : String) : String :=
  match readBytes d n with
  | some c => hashFn c
  | none => ""

/-- The extension whitelist iterated in get_raw_files / get_processed_files. -/
def supportedExtensions : List String := [".txt", ".md", ".text"]

/-- One pass of the loop body in get_raw_files: `RAW_DIR.glob(f"*.ext")`,
i.e. the names in the directory ending in the extension. -/
def globExt (d : Dir) (ext : String) : List String :=
  (d.map Prod.fst).filter (fun n => n.endsWith ext)

/-- A name carrying one of the three supported extensions. -/
def hasSupportedExtension (n : String) : Bool :=
  supportedExtensions.any (fun ext => n.endsWith ext)

/-- Python string comparison, the order used by `sorted` on same-directory
paths. -/
def stringLeB (a b : String) : Bool := decide (a ≤ b)

/-- DocumentStorage.get_raw_files (storage.py lines 55-60): accumulate the
glob results for the three extensions, then `sorted(files)` (names all live in
one directory, so path order is name order). -/
def get_raw_files (st : StorageState) : List String :=
  (supportedExtensions.foldl (fun acc ext => acc ++ globExt st.rawDir ext) []).mergeSort
    stringLeB

/-- DocumentStorage.file_needs_processing (storage.py lines 69-82): a missing
file never needs processing; otherwise the file needs processing when it has
no metadata entry or its current hash differs from the stored one. -/
def file_needs_processing (hashFn : String → String) (st : StorageState) (name : String) : Bool :=
  if fileExists st.rawDir name then
    match st.metadata.lookup name with
    | none => true
    | some r => get_file_hash hashFn st.rawDir name != r.hash
  else false

/-- Python dict assignment `m[k] = v` on an insertion-ordered dict rendered as
an association list: replace in place when the key is present, append
otherwise. -/
def updateAssoc {β : Type} (m : List (String × β)) (k : String) (v : β) :
    List (String × β) :=
  if (m.lookup k).isSome then
    m.map (fun p => if p.1 = k then (k, v) else p)
  else m ++ [(k, v)]

/-- `str(raw_file)` for a file in the raw directory. -/
def rawPathString (n : String) : String := "data/raw/" ++ n

/-- `str(processed_file)` for a file in the processed directory. -/
def processedPathString (n : String) : String := "data/processed/" ++ n

/-- DocumentStorage.mark_file_processed (storage.py lines 84-97): build the
record from the raw file as it is now (hash via `_get_file_hash`, size via
`raw_file.stat().st_size if raw_file.exists() else 0`), assign it under the
file name, then `_save_metadata`. -/
def mark_file_processed (hashFn : String → String) (saveOk : Bool) (st : StorageState)
    (rawName processedName : String) : StorageState :=
  let r : DocumentRecord :=
    { hash := get_file_hash hashFn st.rawDir rawName
      processed_at := st.now
      raw_path := rawPathString rawName
      processed_path := processedPathString processedName
      size := match st.rawDir.lookup rawName with
              | some f => f.content.length
              | none => 0 }
  save_metadata saveOk { st with metadata := updateAssoc st.metadata rawName r }

/-- DocumentStorage.read_raw_file (storage.py lines 107-118): `None` when the
file is absent, unreadable, or not valid UTF-8. -/
def read_raw_file (st : StorageState) (filename : String) : Option String :=
  readBytes st.rawDir filename

/-- DocumentStorage.read_processed_file (storage.py lines 120-131). -/
def read_processed_file (st : StorageState) (filename : String) : Option String :=
  readBytes st.processedDir filename

/-- Creating or overwriting a file with fresh content (a successful
`open(..., 'w')` followed by `write`). -/
def writeFile (d : Dir) (n : String) (content : String) : Dir :=
  updateAssoc d n (FsFile.mk content true)

/-- DocumentStorage.write_processed_file (storage.py lines 133-144): `true`
and the updated directory on success; on an I/O failure log and return
`false` with the state unchanged.  `writeOk` models whether the underlying
write succeeds. -/
def write_processed_file (writeOk : Bool) (st : StorageState) (filename content : String) :
    Bool × StorageState :=
  if writeOk then
    (true, { st with processedDir := writeFile st.processedDir filename content })
  else (false, st)

/-- The terminal outcomes of DocumentStorage.process_raw_file (storage.py
lines 151-208), one constructor per `return` site. -/
inductive ProcessOutcome where
  | configError
  | notFound
  | readError
  | serviceError (e : String)
  | writeError
  | success (content : String)
deriving DecidableEq

/-- The exact strings returned by process_raw_file for each outcome. -/
def outcomeMessage (filename : String) : ProcessOutcome → String
  | ProcessOutcome.configError =>
      "Error: ANTHROPIC_API_KEY not configured. Please set the API key in your environment."
  | ProcessOutcome.notFound =>
      "Error: File \x27" ++ filename ++ "\x27 not found in raw directory"
  | ProcessOutcome.readError =>
      "Error: Could not read file \x27" ++ filename ++ "\x27"
  | ProcessOutcome.serviceError e =>
      "Error processing file \x27" ++ filename ++ "\x27: " ++ e
  | ProcessOutcome.writeError =>
      "Error: Failed to save processed content for \x27" ++ filename ++ "\x27"
  | ProcessOutcome.success c =>
      "✅ Successfully processed \x27" ++ filename ++ "\x27\n\nProcessed content saved to: " ++
      processedPathString filename ++ "\n\nPreview of processed content:\n" ++
      c.take 300 ++ (if c.length > 300 then "..." else "")

/-- DocumentStorage.process_raw_file (storage.py lines 151-208).  `configured`
is `self.anthropic_client is not None`; `improve` is the external call
(`messages.create` plus `response.content[0].text`), whose exception is caught
by the `except` clause and turned into the terminal error return.  The write
happens only after a successful improvement, and `mark_file_processed` runs
only after a confirmed successful write. -/
def process_raw_file (hashFn : String → String) (configured : Bool)
    (improve : String → Except String String) (writeOk saveOk : Bool)
    (st : StorageState) (filename : String) : ProcessOutcome × StorageState :=
  if configured then
    if fileExists st.rawDir filename then
      match read_raw_file st filename with
      | none => (ProcessOutcome.readError, st)
      | some rawContent =>
        match improve rawContent with
        | Except.error e => (ProcessOutcome.serviceError e, st)
        | Except.ok processedContent =>
          match write_processed_file writeOk st filename processedContent with
          | (true, st1) =>
              (ProcessOutcome.success processedContent,
               mark_file_processed hashFn saveOk st1 filename filename)
          | (false, st1) => (ProcessOutcome.writeError, st1)
    else (ProcessOutcome.notFound, st)
  else (ProcessOutcome.configError, st)

/-- Argument maps handed to tool handlers (string-valued, as all the declared
tool schemas are). -/
abbrev Arguments := List (String × String)

/-- BaseToolHandler.validate_required_args (tool_handlers.py lines 30-37):
the first required argument that is missing or empty (Python falsy) yields the
error message; otherwise validation passes. -/
def validate_required_args (args : Arguments) (required : List String) : Option String :=
  match required.find? (fun a => (args.lookup a).getD "" == "") with
  | some a => some ("Error: " ++ a ++ " is required")
  | none => none

/-- The message Python raises when a missing attribute is looked up on a
handler object: handlers.py line 55 and line 60 call
`self.create_text_response(...)`, but neither BaseToolHandler nor any handler
subclass defines `create_text_response`. -/
def createTextResponseError : String :=
  "AttributeError: \x27ReadRawFileHandler\x27 object has no attribute \x27create_text_response\x27"

/-- ReadRawFileHandler.execute (handlers.py lines 53-64).  First component:
the returned content blocks, or the message of the exception the body raises.
Second component: how many storage accesses the body performed before
finishing.  Both paths that should report an error evaluate
`self.create_text_response`, which raises `AttributeError`. -/
def read_raw_file_handler_execute (st : StorageState) (args : Arguments) :
    Except String (List String) × Nat :=
  match validate_required_args args ["filename"] with
  | some _err => (Except.error createTextResponseError, 0)
  | none =>
      let filename := (args.lookup "filename").getD ""
      match read_raw_file st filename with
      | none => (Except.error createTextResponseError, 1)
      | some content =>
          (Except.ok ["Content of \x27" ++ filename ++ "\x27:\n\n" ++ content], 1)

/-- The names bound at module scope in tool_handlers.py: its four import
lines (line 8 imports only ContentBlock and Tool from mcp.types) and its own
top-level definitions.  `TextContent`, `ImageContent` and `AudioContent`,
used at lines 65, 70 and 76, are not among them. -/
def toolHandlersScope : List String :=
  ["ABC", "abstractmethod", "Dict", "Any", "List", "Optional", "Callable", "Awaitable",
   "ContentBlock", "Tool", "logger", "BaseToolHandler", "ToolRegistry", "tool_registry"]

/-- Evaluating a bare name in a module scope: the value if bound, otherwise
the `NameError` Python raises. -/
def evalModuleName (scope : List String) (n : String) : Except String String :=
  if scope.contains n then Except.ok n
  else Except.error ("NameError: name \x27" ++ n ++ "\x27 is not defined")

/-- Constructing `TextContent(type="text", text=...)` in a given module
scope: the constructor name must first be resolved. -/
def mkTextContent (scope : List String) (text : String) : Except String String :=
  match evalModuleName scope "TextContent" with
  | Except.ok _ => Except.ok text
  | Except.error e => Except.error e

/-- ToolRegistry.execute_tool (tool_handlers.py lines 63-76).  The `try` body
resolves the handler; an unregistered name should produce the single
`Unknown tool` block, and the `except` clause should convert any exception
into the single `Error executing` block — but both blocks are built with the
unimported `TextContent`, so building them raises `NameError`, and a
`NameError` raised inside the `except` clause escapes the function. -/
def execute_tool (handlers : List (String × (Arguments → Except String (List String))))
    (name : String) (args : Arguments) : Except String (List String) :=
  let body : Except String (List String) :=
    match handlers.lookup name with
    | none =>
      match mkTextContent toolHandlersScope ("Unknown tool: " ++ name) with
      | Except.ok b => Except.ok [b]
      | Except.error e => Except.error e
    | some h => h args
  match body with
  | Except.ok r => Except.ok r
  | Except.error e =>
    match mkTextContent toolHandlersScope ("Error executing " ++ name ++ ": " ++ e) with
    | Except.ok b => Except.ok [b]
    | Except.error e2 => Except.error e2

/-- A concrete hash function standing in for md5 hexdigest in witnesses. -/
def h0 : String → String := fun s => "md5:" ++ s

/-- Witness state: one new raw file, nothing processed yet. -/
def st0 : StorageState :=
  { rawDir := [("notes1.txt", FsFile.mk "helo wrld" true)]
    processedDir := []
    snapshot := Snapshot.absent
    metadata := []
    now := "2026-10-12T00:00:00" }

/-- Witness improvement capability: always succeeds with a cleaned text. -/
def improveOk : String → Except String String := fun _ => Except.ok "Hello world"

/-- Witness improvement capability: always fails. -/
def improveFail : String → Except String String := fun _ => Except.error "boom"

/-- A record whose stored hash is the empty sentinel. -/
def rEmpty : DocumentRecord :=
  { hash := "", processed_at := "t", raw_path := rawPathString "a.txt"
    processed_path := processedPathString "a.txt", size := 1 }

/-- A record with an ordinary non-empty stored hash. -/
def rFull : DocumentRecord :=
  { hash := "md5:x", processed_at := "t", raw_path := rawPathString "a.txt"
    processed_path := processedPathString "a.txt", size := 1 }

/-- State for the C4 counterexample: `a.txt` exists but is unreadable, and
its metadata record stores the empty sentinel hash. -/
def stSentinel : StorageState :=
  { rawDir := [("a.txt", FsFile.mk "x" false)]
    processedDir := []
    snapshot := Snapshot.absent
    metadata := [("a.txt", rEmpty)]
    now := "t" }

/-- State for the C4 witness: `a.txt` exists but is unreadable, and its
metadata record stores a non-empty hash. -/
def stUnreadable : StorageState :=
  { rawDir := [("a.txt", FsFile.mk "x" false)]
    processedDir := []
    snapshot := Snapshot.absent
    metadata := [("a.txt", rFull)]
    now := "t" }

/-- State for the C10 witness: the marked raw file does not exist. -/
def stNoRaw : StorageState :=
  { rawDir := []
    processedDir := [("gone.txt", FsFile.mk "old" true)]
    snapshot := Snapshot.absent
    metadata := []
    now := "t1" }

/-! Helper lemmas about the embedding. -/

theorem lookup_map_update {β : Type} (k : String) (v : β) :
    ∀ m : List (String × β),
      (m.map (fun p => if p.1 = k then (k, v) else p)).lookup k
        = (m.lookup k).map (fun _ => v)
  | [] => by simp
  | (a, b) :: t => by
    by_cases hk : a = k
    · subst hk
      simp
    · have hba : (k == a) = false := by
        simp [Ne.symm hk]
      simp only [List.map_cons, if_neg hk, List.lookup_cons, hba]
      exact lookup_map_update k v t

theorem lookup_updateAssoc_self {β : Type} (m : List (String × β)) (k : String) (v : β) :
    (updateAssoc m k v).lookup k = some v := by
  unfold updateAssoc
  cases hm : m.lookup k with
  | none =>
    rw [if_neg (by simp [hm])]
    rw [List.lookup_append, hm]
    simp
  | some b =>
    rw [if_pos (by simp [hm])]
    rw [lookup_map_update, hm]
    rfl

theorem save_metadata_metadata (b : Bool) (st : StorageState) :
    (save_metadata b st).metadata = st.metadata := by
  cases b <;> rfl

theorem save_metadata_processedDir (b : Bool) (st : StorageState) :
    (save_metadata b st).processedDir = st.processedDir := by
  cases b <;> rfl

theorem mark_metadata_eq (hashFn : String → String) (saveOk : Bool) (st : StorageState)
    (rn pn : String) :
    (mark_file_processed hashFn saveOk st rn pn).metadata
      = updateAssoc st.metadata rn
          { hash := get_file_hash hashFn st.rawDir rn
            processed_at := st.now
            raw_path := rawPathString rn
            processed_path := processedPathString pn
            size := match st.rawDir.lookup rn with
                    | some f => f.content.length
                    | none => 0 } := by
  cases saveOk <;> rfl

theorem mark_processedDir_eq (hashFn : String → String) (saveOk : Bool) (st : StorageState)
    (rn pn : String) :
    (mark_file_processed hashFn saveOk st rn pn).processedDir = st.processedDir := by
  cases saveOk <;> rfl

theorem fileExists_of_readBytes {d : Dir} {n c : String}
    (h : readBytes d n = some c) : fileExists d n = true := by
  unfold readBytes at h
  unfold fileExists
  cases hl : d.lookup n with
  | none => rw [hl] at h; simp at h
  | some f => simp

theorem get_file_hash_eq_of_readBytes (hashFn : String → String) {d : Dir} {n c : String}
    (h : readBytes d n = some c) : get_file_hash hashFn d n = hashFn c := by
  unfold get_file_hash
  rw [h]

theorem readBytes_writeFile (d : Dir) (n c : String) :
    readBytes (writeFile d n c) n = some c := by
  unfold readBytes writeFile
  rw [lookup_updateAssoc_self]
  simp

/-! Claim theorems. -/

/-- C8.  `_load_metadata` returns the decoded mapping when the snapshot
parses, and the empty mapping both when no snapshot file exists and when the
snapshot is unparsable; being a total function, it returns in every case
rather than raising to the caller. -/
theorem load_metadata_spec :
    (∀ m : Metadata, load_metadata (Snapshot.data m) = m)
    ∧ load_metadata Snapshot.absent = []
    ∧ load_metadata Snapshot.corrupt = [] :=
  ⟨fun _ => rfl, rfl, rfl⟩

/-- C5, evaluation at the failing input.  Dispatching an unregistered
operation name through `ToolRegistry.execute_tool` does not produce the
`Unknown tool` content block: tool_handlers.py never imports `TextContent`,
so building the block raises `NameError`, the `except` clause trips over the
same unbound name, and the `NameError` escapes the dispatch boundary. -/
theorem execute_tool_unknown_tool_raises :
    execute_tool [] "does_not_exist" []
      = Except.error "NameError: name \x27TextContent\x27 is not defined" := by
  rfl

/-- C6, evaluation at the failing input.  `ReadRawFileHandler.execute`,
called with the `filename` argument missing or bound to the empty string,
does perform zero storage accesses but raises `AttributeError` (handlers.py
line 55 calls the nonexistent method `create_text_response`) instead of
returning the validation message `Error: filename is required`. -/
theorem read_raw_handler_validation_raises (st : StorageState) :
    read_raw_file_handler_execute st [] = (Except.error createTextResponseError, 0)
    ∧ read_raw_file_handler_execute st [("filename", "")]
        = (Except.error createTextResponseError, 0) :=
  ⟨rfl, rfl⟩

/-- C10.  `mark_file_processed` on a raw file that no longer exists still
creates or overwrites the DocumentRecord, storing the empty-string hash
sentinel and size 0, so a record with an empty fingerprint enters the
metadata store. -/
theorem mark_missing_file_records_empty_hash (hashFn : String → String) (saveOk : Bool)
    (st : StorageState) (rawName processedName : String)
    (habs : st.rawDir.lookup rawName = none) :
    (mark_file_processed hashFn saveOk st rawName processedName).metadata.lookup rawName
      = some { hash := "", processed_at := st.now, raw_path := rawPathString rawName,
               processed_path := processedPathString processedName, size := 0 } := by
  rw [mark_metadata_eq]
  have h1 : get_file_hash hashFn st.rawDir rawName = "" := by
    simp [get_file_hash, readBytes, habs]
  rw [h1, habs]
  exact lookup_updateAssoc_self st.metadata rawName _

/-- C10 witness: marking the vanished file `gone.txt` in the concrete state
`stNoRaw` stores the empty hash and size 0. -/
theorem mark_missing_file_records_empty_hash_witness :
    (mark_file_processed h0 true stNoRaw "gone.txt" "gone.txt").metadata.lookup "gone.txt"
      = some { hash := "", processed_at := stNoRaw.now, raw_path := rawPathString "gone.txt",
               processed_path := processedPathString "gone.txt", size := 0 } :=
  mark_missing_file_records_empty_hash h0 true stNoRaw "gone.txt" "gone.txt" rfl

/-- C3.  For a raw file that exists at check time, `file_needs_processing` is
true exactly when no DocumentRecord exists for its name or the stored
`content_hash` differs from the current fingerprint of the file (the result
of `_get_file_hash`, which is the empty sentinel when the bytes cannot be
read); for a file that does not exist at check time it is false. -/
theorem needs_processing_spec (hashFn : String → String) (st : StorageState) (name : String) :
    (fileExists st.rawDir name = true →
      (file_needs_processing hashFn st name = true ↔
        st.metadata.lookup name = none ∨
          ∃ r, st.metadata.lookup name = some r
            ∧ r.hash ≠ get_file_hash hashFn st.rawDir name))
    ∧ (fileExists st.rawDir name = false → file_needs_processing hashFn st name = false) := by
  constructor
  · intro hex
    cases hm : st.metadata.lookup name with
    | none => simp [file_needs_processing, hex, hm]
    | some r =>
      simp only [file_needs_processing, hex, if_true, hm, bne_iff_ne, ne_eq]
      constructor
      · intro h
        exact Or.inr ⟨r, rfl, fun he => h he.symm⟩
      · rintro (h | ⟨r2, hr2, hne⟩)
        · cases h
        · cases Option.some.inj hr2
          exact fun he => hne he.symm
  · intro hex
    simp [file_needs_processing, hex]

/-- C3 witness: in the concrete state `st0`, the new raw file `notes1.txt`
exists and has no record, so it needs processing. -/
theorem needs_processing_spec_witness :
    fileExists st0.rawDir "notes1.txt" = true
    ∧ file_needs_processing h0 st0 "notes1.txt" = true :=
  ⟨by decide,
   ((needs_processing_spec h0 st0 "notes1.txt").1 (by decide)).mpr (Or.inl (by decide))⟩

/-- C4 counterexample.  In `stSentinel` the raw file `a.txt` exists, has a
DocumentRecord, and its bytes cannot be read at check time — yet
`file_needs_processing` is false, because the stored hash is itself the empty
sentinel and equals the failed-read fingerprint.  This refutes the claim that
the staleness check always degrades to needs_processing = true for an
unhashable recorded file. -/
theorem needs_processing_sentinel_counterexample :
    fileExists stSentinel.rawDir "a.txt" = true
    ∧ stSentinel.metadata.lookup "a.txt" = some rEmpty
    ∧ readBytes stSentinel.rawDir "a.txt" = none
    ∧ file_needs_processing h0 stSentinel "a.txt" = false := by
  refine ⟨by decide, by decide, by decide, by decide⟩

/-- C4 as amended.  When a file's bytes cannot be read, `_get_file_hash`
returns the empty sentinel instead of propagating an error; and a raw file
that exists, has a DocumentRecord whose stored hash is non-empty, and cannot
be hashed at check time is treated as changed (`file_needs_processing` is
true).  When the stored hash is itself the empty sentinel, such a file is
instead reported as unchanged (see the counterexample). -/
theorem hash_failure_degrades (hashFn : String → String) (st : StorageState)
    (name : String) (r : DocumentRecord)
    (hbad : readBytes st.rawDir name = none) :
    get_file_hash hashFn st.rawDir name = ""
    ∧ (fileExists st.rawDir name = true →
        st.metadata.lookup name = some r →
        r.hash ≠ "" →
        file_needs_processing hashFn st name = true) := by
  have h1 : get_file_hash hashFn st.rawDir name = "" := by
    simp [get_file_hash, hbad]
  refine ⟨h1, ?_⟩
  intro hex hm hne
  simp only [file_needs_processing, hex, if_true, hm, h1, bne_iff_ne, ne_eq]
  exact fun hh => hne hh.symm

/-- C4 witness: in `stUnreadable` the record stores the non-empty hash
`md5:x` while the file is unreadable, so the file is reported as changed. -/
theorem hash_failure_degrades_witness :
    get_file_hash h0 stUnreadable.rawDir "a.txt" = ""
    ∧ file_needs_processing h0 stUnreadable "a.txt" = true :=
  ⟨(hash_failure_degrades h0 stUnreadable "a.txt" rFull (by decide)).1,
   (hash_failure_degrades h0 stUnreadable "a.txt" rFull (by decide)).2
     (by decide) (by decide) (by decide)⟩

/-- C2.  If the external improvement call inside `process_raw_file` fails,
the workflow returns the terminal service-error outcome with the state
untouched: no DocumentRecord is created or updated (the metadata store is
unchanged) and the processed directory is unchanged, so an absent processed
file stays absent and an existing one keeps its prior content. -/
theorem process_failure_invariant (hashFn : String → String)
    (improve : String → Except String String) (writeOk saveOk : Bool)
    (st : StorageState) (filename c e : String)
    (hread : read_raw_file st filename = some c)
    (himp : improve c = Except.error e) :
    (process_raw_file hashFn true improve writeOk saveOk st filename).1
        = ProcessOutcome.serviceError e
    ∧ (process_raw_file hashFn true improve writeOk saveOk st filename).2.metadata
        = st.metadata
    ∧ (process_raw_file hashFn true improve writeOk saveOk st filename).2.processedDir
        = st.processedDir := by
  have hread2 : readBytes st.rawDir filename = some c := hread
  have hex : fileExists st.rawDir filename = true := fileExists_of_readBytes hread2
  have hred : process_raw_file hashFn true improve writeOk saveOk st filename
      = (ProcessOutcome.serviceError e, st) := by
    simp [process_raw_file, hex, hread, himp]
  rw [hred]
  exact ⟨rfl, rfl, rfl⟩

/-- C2 witness: processing `notes1.txt` in `st0` with a failing improvement
capability returns the service error and leaves the state unchanged. -/
theorem process_failure_invariant_witness :
    read_raw_file st0 "notes1.txt" = some "helo wrld"
    ∧ improveFail "helo wrld" = Except.error "boom"
    ∧ ((process_raw_file h0 true improveFail true true st0 "notes1.txt").1
          = ProcessOutcome.serviceError "boom"
        ∧ (process_raw_file h0 true improveFail true true st0 "notes1.txt").2.metadata
            = st0.metadata
        ∧ (process_raw_file h0 true improveFail true true st0 "notes1.txt").2.processedDir
            = st0.processedDir) :=
  ⟨by decide, rfl,
   process_failure_invariant h0 improveFail true true st0 "notes1.txt" "helo wrld" "boom"
     (by decide) rfl⟩

/-- C1.  Whenever `process_raw_file` returns the success outcome, a
DocumentRecord exists for the file whose `content_hash` is the hash of the
raw file's bytes as they stood when processing started, and the processed
file holds exactly the text the external improvement capability returned. -/
theorem process_success_invariant (hashFn : String → String) (configured : Bool)
    (improve : String → Except String String) (writeOk saveOk : Bool)
    (st : StorageState) (filename improved : String)
    (h : (process_raw_file hashFn configured improve writeOk saveOk st filename).1
          = ProcessOutcome.success improved) :
    ∃ c r, read_raw_file st filename = some c
      ∧ r.hash = hashFn c
      ∧ (process_raw_file hashFn configured improve writeOk saveOk st filename).2.metadata.lookup
          filename = some r
      ∧ read_processed_file
          (process_raw_file hashFn configured improve writeOk saveOk st filename).2 filename
          = some improved := by
  cases configured with
  | false => simp [process_raw_file] at h
  | true =>
    cases hex : fileExists st.rawDir filename with
    | false => simp [process_raw_file, hex] at h
    | true =>
      cases hr : read_raw_file st filename with
      | none => simp [process_raw_file, hex, hr] at h
      | some c =>
        cases himp : improve c with
        | error e => simp [process_raw_file, hex, hr, himp] at h
        | ok pc =>
          cases writeOk with
          | false => simp [process_raw_file, hex, hr, himp, write_processed_file] at h
          | true =>
            simp only [process_raw_file, hex, hr, himp, write_processed_file, if_true] at h ⊢
            have hpc : pc = improved := by
              simpa using h
            subst hpc
            have hr2 : readBytes st.rawDir filename = some c := hr
            have hhash : get_file_hash hashFn st.rawDir filename = hashFn c :=
              get_file_hash_eq_of_readBytes hashFn hr2
            refine ⟨c, { hash := hashFn c, processed_at := st.now,
                         raw_path := rawPathString filename,
                         processed_path := processedPathString filename,
                         size := match st.rawDir.lookup filename with
                                 | some f => f.content.length
                                 | none => 0 }, rfl, rfl, ?_, ?_⟩
            · rw [mark_metadata_eq, lookup_updateAssoc_self]
              simp [hhash]
            · show readBytes
                (mark_file_processed hashFn saveOk
                  { st with processedDir := writeFile st.processedDir filename pc }
                  filename filename).processedDir filename = some pc
              rw [mark_processedDir_eq]
              exact readBytes_writeFile st.processedDir filename pc

/-- C1 witness: processing the new file `notes1.txt` in `st0` with a stub
improvement capability returning `Hello world` succeeds; the stored hash is
the fingerprint of the original raw content `helo wrld`, and the processed
file holds exactly `Hello world`. -/
theorem process_success_invariant_witness :
    (process_raw_file h0 true improveOk true true st0 "notes1.txt").1
        = ProcessOutcome.success "Hello world"
    ∧ ∃ c r, read_raw_file st0 "notes1.txt" = some c
        ∧ r.hash = h0 c
        ∧ (process_raw_file h0 true improveOk true true st0 "notes1.txt").2.metadata.lookup
            "notes1.txt" = some r
        ∧ read_processed_file
            (process_raw_file h0 true improveOk true true st0 "notes1.txt").2 "notes1.txt"
            = some "Hello world" :=
  ⟨by decide,
   process_success_invariant h0 true improveOk true true st0 "notes1.txt" "Hello world"
     (by decide)⟩

theorem stringLeB_trans (a b c : String) (h1 : stringLeB a b = true)
    (h2 : stringLeB b c = true) : stringLeB a c = true := by
  unfold stringLeB at h1 h2 ⊢
  exact decide_eq_true (le_trans (of_decide_eq_true h1) (of_decide_eq_true h2))

theorem stringLeB_total (a b : String) :
    (stringLeB a b || stringLeB b a) = true := by
  unfold stringLeB
  rcases le_total a b with h | h
  · simp [h]
  · simp [h]

/-- C9.  `get_raw_files` returns exactly the names in the raw directory that
carry one of the supported extensions `.txt`, `.md`, `.text`, in ascending
name order (every adjacent pair of the output is ordered); and, being a pure
function of the directory state, two calls with no intervening filesystem
change return identical ordered sequences. -/
theorem get_raw_files_spec (st : StorageState) :
    (∀ n, n ∈ get_raw_files st ↔
        n ∈ st.rawDir.map Prod.fst ∧ hasSupportedExtension n = true)
    ∧ (get_raw_files st).Pairwise (fun a b : String => a ≤ b)
    ∧ get_raw_files st = get_raw_files st := by
  refine ⟨?_, ?_, rfl⟩
  · intro n
    simp only [get_raw_files, supportedExtensions, List.foldl_cons, List.foldl_nil,
      List.nil_append, List.mem_mergeSort, List.mem_append, globExt, List.mem_filter,
      hasSupportedExtension, List.any_cons, List.any_nil, Bool.or_eq_true, Bool.or_false,
      and_or_left, or_assoc]
  · have hs : (get_raw_files st).Pairwise (fun a b : String => stringLeB a b = true) :=
      List.sorted_mergeSort stringLeB_trans stringLeB_total
        (supportedExtensions.foldl (fun acc ext => acc ++ globExt st.rawDir ext) [])
    exact hs.imp (fun h => of_decide_eq_true h)
